import Mathlib

/-!
Verification of the phy GUI dock-window module (src/phy/gui/gui.py).

This file gives a shallow embedding of the module's data model and
operations, and proves/refutes a fixed list of claims about it.

Modelling conventions:
* A Python view class is represented by its class name (a String): the
  source compares classes with object equality and derives display names
  from the class name (two distinct Python classes normally have distinct
  names, and class names are identifiers).
* Qt-side effects (dock-widget construction, native painting, timers) are
  outside the modelled state; the modelled state keeps the fields the
  claims observe: the tracked view list, the per-class name counter, the
  closed/visible flags, the status bar, the persisted state object.
* The event bus (phylib connect/emit) is synchronous and ordered; a call
  to emit is modelled either by passing the list of listener return values
  as an argument (closeEvent) or by the event trace it produces
  (dock-close handling).
* The file system is a map from paths to file contents; JSON round-trips
  through phylib's save/load helpers are modelled as storing the
  dictionary itself.
-/

namespace Phy

/-- A Python value as returned by an event listener or passed to a
setter. Only the shapes the claims observe are distinguished. -/
inductive PyVal where
  | pynone
  | bool (b : Bool)
  | int (n : Int)
  | str (s : String)
  deriving DecidableEq, Repr

/-- Python equality comparison with the constant False, used by the
membership test False in res: True exactly for False and for numbers
equal to 0. -/
def PyVal.eqFalse : PyVal → Bool
  | PyVal.bool b => !b
  | PyVal.int n => n == 0
  | _ => false

/-- Python truthiness of a value. -/
def PyVal.truthy : PyVal → Bool
  | PyVal.pynone => false
  | PyVal.bool b => b
  | PyVal.int n => n != 0
  | PyVal.str s => s ≠ ""

/-- Python str() of a value. -/
def PyVal.pyStr : PyVal → String
  | PyVal.pynone => "None"
  | PyVal.bool b => if b then "True" else "False"
  | PyVal.int n => toString n
  | PyVal.str s => s

/-- A JSON-serialisable value stored in the GUI state: strings, numbers,
and the opaque geometry blob dictionary produced by save_geometry_state
(two toolkit-opaque byte blobs, modelled as numbers). -/
inductive JVal where
  | str (s : String)
  | num (n : Int)
  | geometryState (geometry windowState : Nat)
  deriving DecidableEq, Repr

/-- Contents of a file on disk: either a parsed JSON object (a key-value
map) or malformed JSON that raises JSONDecodeError when parsed. -/
inductive FileContent where
  | json (m : String → Option JVal)
  | malformed

/-- The file system: a map from absolute paths to file contents; a path
mapped to none does not exist. -/
def FS := String → Option FileContent

/-- GUIState is a Bunch, i.e. a dict whose attribute accesses are item
accesses; it is modelled by its key-value map. The constructor stores
the bookkeeping entries name and config_dir as ordinary keys, exactly as
Bunch attribute assignment does. -/
structure GUIState where
  data : String → Option JVal

/-- Bunch attribute read of a string-valued key (the constructor
guarantees name and config_dir are set to strings). -/
def GUIState.getStr (st : GUIState) (k : String) : String :=
  match st.data k with
  | some (JVal.str s) => s
  | _ => ""

/-- Item assignment on the state dictionary. -/
def GUIState.setKey (st : GUIState) (k : String) (v : JVal) : GUIState :=
  ⟨fun q => if q = k then some v else st.data q⟩

/-- dict.update: every key present in the argument overrides the
current entry. -/
def GUIState.updateWith (st : GUIState) (m : String → Option JVal) : GUIState :=
  ⟨fun q =>
    match m q with
    | some v => some v
    | none => st.data q⟩

/-- The deterministic path of the state file,
op.join(config_dir, name, 'state.json'). -/
def GUIState.path (st : GUIState) : String :=
  st.getStr "config_dir" ++ "/" ++ st.getStr "name" ++ "/state.json"

/-- GUIState.load: return early if the file does not exist; otherwise
parse it, catching JSONDecodeError (malformed file becomes the empty
dictionary), and update the state with the parsed data. -/
def GUIState.load (st : GUIState) (fs : FS) : GUIState :=
  match fs st.path with
  | none => st
  | some FileContent.malformed => st.updateWith (fun _ => none)
  | some (FileContent.json m) => st.updateWith m

/-- GUIState.load in the exception monad: the only exception a bad state
file can raise is JSONDecodeError, and the source catches it, so every
branch returns ok. -/
def GUIState.loadE (st : GUIState) (fs : FS) : Except String GUIState :=
  match fs st.path with
  | none => Except.ok st
  | some FileContent.malformed => Except.ok (st.updateWith (fun _ => none))
  | some (FileContent.json m) => Except.ok (st.updateWith m)

/-- GUIState.save: write the current items, minus the bookkeeping keys
config_dir and name, as JSON to the state path. -/
def GUIState.save (st : GUIState) (fs : FS) : FS :=
  fun p =>
    if p = st.path then
      some (FileContent.json
        (fun k => if k = "config_dir" ∨ k = "name" then none else st.data k))
    else fs p

/-- GUIState.__init__(name, config_dir, **kwargs): initialise the dict
with the kwargs, set the name and config_dir entries, then load from the
config directory. (Directory creation is not modelled: the file map is
keyed by full paths.) -/
def GUIState.init (nm cfg : String) (kwargs : String → Option JVal) (fs : FS) :
    GUIState :=
  GUIState.load
    ⟨fun k =>
      if k = "name" then some (JVal.str nm)
      else if k = "config_dir" then some (JVal.str cfg)
      else kwargs k⟩
    fs

/-- Decimal rendering of a natural number, the embedding of the %d
format directive. Fuel-based structural recursion so that concrete
instances reduce in the kernel. -/
def decAux : Nat → Nat → List Char
  | 0, _ => []
  | fuel + 1, n =>
    if n < 10 then [Nat.digitChar n]
    else decAux fuel (n / 10) ++ [Nat.digitChar (n % 10)]

/-- Decimal rendering of a natural number as a string. -/
def decimalRepr (n : Nat) : String := ⟨decAux (n + 1) n⟩

/-- Decimal valuation of a character list, left inverse of decAux. -/
def decVal (l : List Char) : Nat :=
  l.foldl (fun a c => 10 * a + (c.toNat - 48)) 0

theorem digitChar_toNat (n : Nat) (h : n < 10) : (Nat.digitChar n).toNat - 48 = n := by
  interval_cases n <;> rfl

theorem decVal_append (l : List Char) (c : Char) :
    decVal (l ++ [c]) = 10 * decVal l + (c.toNat - 48) := by
  simp [decVal, List.foldl_append]

theorem decVal_decAux : ∀ fuel n, n < fuel → decVal (decAux fuel n) = n := by
  intro fuel
  induction fuel with
  | zero => intro n h; omega
  | succ f ih =>
    intro n h
    by_cases h10 : n < 10
    · simp [decAux, h10, decVal, digitChar_toNat n h10]
    · have hdiv : n / 10 < n := Nat.div_lt_self (by omega) (by omega)
      have hf : n / 10 < f := by omega
      simp only [decAux, if_neg h10, decVal_append, ih _ hf,
        digitChar_toNat (n % 10) (Nat.mod_lt n (by omega))]
      omega

theorem decimalRepr_injective {a b : Nat} (h : decimalRepr a = decimalRepr b) :
    a = b := by
  have hd : decAux (a + 1) a = decAux (b + 1) b := congrArg String.data h
  have ha := decVal_decAux (a + 1) a (Nat.lt_succ_self a)
  have hb := decVal_decAux (b + 1) b (Nat.lt_succ_self b)
  rw [← ha, ← hb, hd]

/-- A user-supplied view object: an identity plus its Python class,
represented by the class name. -/
structure View where
  vid : Nat
  cls : String
  deriving DecidableEq, Repr

/-- A view after add_view assigned its display name (the source mutates
view.name in place; the tracked list holds views with their names). -/
structure TrackedView where
  view : View
  name : String
  deriving DecidableEq, Repr

/-- The per-window event trace entries the claims observe. -/
inductive Ev where
  | close_dock_widget (tv : TrackedView)
  | close_view (tv : TrackedView)
  deriving DecidableEq, Repr

/-- The record of observable effects of one closeEvent invocation. -/
structure CloseEffects where
  emittedClose : Bool
  ignored : Bool
  capturedGeometry : Bool
  savedState : Bool
  deriving DecidableEq, Repr

/-- The modelled state of a GUI main window. geometryBlob and
windowStateBlob stand for the opaque byte strings Qt saveGeometry() and
saveState() would return. -/
structure GUI where
  closed : Bool
  visible : Bool
  views : List TrackedView
  viewClassIndices : String → Nat
  lockStatus : Bool
  statusBarMessage : String
  state : GUIState
  geometryBlob : Nat
  windowStateBlob : Nat

/-- GUI.__init__: _closed = False, empty view list, defaultdict(int)
class counter, unlocked empty status bar, state loaded from the config
directory. -/
def GUI.init (nm cfg : String) (fs : FS) : GUI :=
  { closed := false
    visible := false
    views := []
    viewClassIndices := fun _ => 0
    lockStatus := false
    statusBarMessage := ""
    state := GUIState.init nm cfg (fun _ => none) fs
    geometryBlob := 0
    windowStateBlob := 0 }

/-- GUI.list_views: the tracked views whose class is cls. -/
def GUI.list_views (g : GUI) (c : String) : List TrackedView :=
  g.views.filter (fun tv => tv.view.cls == c)

/-- The indexed display name basename (index) produced by the
'%s (%d)' format. -/
def indexedName (c : String) (k : Nat) : String :=
  c ++ " (" ++ decimalRepr k ++ ")"

/-- GUI._set_view_name: the first view of its class gets the bare class
name; later ones get the class name with the next usable per-class index
(which the source asserts to be at least 1). -/
def GUI.set_view_name (g : GUI) (v : View) : String :=
  if (g.list_views v.cls).isEmpty then v.cls
  else indexedName v.cls (g.viewClassIndices v.cls)

/-- GUI.add_view: name the view, append it to the tracked list, bump the
per-class counter; returns the new state and the assigned name. Dock
widget construction, dock placement and the add_view event are Qt-side
effects outside the modelled state. -/
def GUI.add_view (g : GUI) (v : View) : GUI × String :=
  ({ g with
      views := g.views ++ [⟨v, g.set_view_name v⟩]
      viewClassIndices := fun c =>
        if c = v.cls then g.viewClassIndices c + 1 else g.viewClassIndices c },
    g.set_view_name v)

/-- Closing a dock container: DockWidget.closeEvent emits
close_dock_widget, whose handler (registered in add_view) removes the
view from the tracked list and emits close_view with (gui, view).
Listeners run synchronously and in order, so the trace lists
close_dock_widget before close_view. -/
def GUI.dockCloseEvent (g : GUI) (tv : TrackedView) : GUI × List Ev :=
  ({ g with views := g.views.erase tv },
    [Ev.close_dock_widget tv, Ev.close_view tv])

/-- GUI.view_count: iterate over the tracked views, bumping a counter
dictionary keyed by view class (insertion-ordered, like a Python dict). -/
def bump : List (String × Nat) → String → List (String × Nat)
  | [], c => [(c, 1)]
  | (k, n) :: rest, c =>
    if k = c then (k, n + 1) :: rest else (k, n) :: bump rest c

/-- GUI.view_count as an insertion-ordered association list
view class name to number of tracked instances. -/
def GUI.view_count (g : GUI) : List (String × Nat) :=
  g.views.foldl (fun acc tv => bump acc tv.view.cls) []

/-- Result of GUI.get_view: a view, Python None (implicit return), or an
IndexError escaping from the list indexing. -/
inductive PyRes where
  | found (tv : TrackedView)
  | pynone
  | indexError
  deriving DecidableEq, Repr

/-- Python list indexing views[i]: negative indices count from the end;
out-of-range indexing is an error (none). -/
def pyIndex (l : List TrackedView) (i : Int) : Option TrackedView :=
  if 0 ≤ (if i < 0 then (l.length : Int) + i else i) then
    l.get? (if i < 0 then (l.length : Int) + i else i).toNat
  else none

/-- GUI.get_view: if index <= len(views) - 1, return views[index]
(possibly raising IndexError), otherwise fall through and return None. -/
def GUI.get_view (g : GUI) (c : String) (i : Int) : PyRes :=
  if i ≤ ((g.list_views c).length : Int) - 1 then
    match pyIndex (g.list_views c) i with
    | some tv => PyRes.found tv
    | none => PyRes.indexError
  else PyRes.pynone

/-- The status_message property getter: str of the current message. -/
def GUI.status_message (g : GUI) : String := g.statusBarMessage

/-- The status_message property setter: a no-op while the lock flag is
set, otherwise shows str(value). -/
def GUI.set_status_message (g : GUI) (v : PyVal) : GUI :=
  if g.lockStatus then g else { g with statusBarMessage := v.pyStr }

/-- GUI.lock_status. -/
def GUI.lock_status (g : GUI) : GUI := { g with lockStatus := true }

/-- GUI.unlock_status. -/
def GUI.unlock_status (g : GUI) : GUI := { g with lockStatus := false }

/-- GUI.show (the show event and geometry restoration are outside the
modelled state). -/
def GUI.show (g : GUI) : GUI := { g with visible := true }

/-- GUI.save_geometry_state: the dictionary of the two opaque blobs. -/
def GUI.save_geometry_state (g : GUI) : JVal :=
  JVal.geometryState g.geometryBlob g.windowStateBlob

/-- The effects record of a run that did nothing observable. -/
def noEffects : CloseEffects := ⟨false, false, false, false⟩

/-- GUI.closeEvent. res is the list of return values of the connected
close listeners (emit returns them in subscription order). If the close
already ran, return immediately. If False is among the results
(Python ==, so False or 0), ignore the event. Otherwise perform the
native close, mark the window closed, capture the geometry state into
the state object and save the state to disk. -/
def GUI.closeEvent (g : GUI) (fs : FS) (res : List PyVal) :
    GUI × FS × CloseEffects :=
  if g.closed then (g, fs, noEffects)
  else if res.any PyVal.eqFalse then
    (g, fs, ⟨true, true, false, false⟩)
  else
    (⟨true, false, g.views, g.viewClassIndices, g.lockStatus,
        g.statusBarMessage,
        g.state.setKey "geometry_state" g.save_geometry_state,
        g.geometryBlob, g.windowStateBlob⟩,
      (g.state.setKey "geometry_state" g.save_geometry_state).save fs,
      ⟨true, false, true, true⟩)

/-- Splitting a character list at a marker character that occurs in
neither prefix part determines both parts. -/
theorem split_at_marker (m : Char) :
    ∀ (l₁ l₂ x y : List Char), m ∉ l₁ → m ∉ l₂ →
      l₁ ++ m :: x = l₂ ++ m :: y → l₁ = l₂ ∧ x = y := by
  intro l₁
  induction l₁ with
  | nil =>
    intro l₂ x y _ h₂ heq
    cases l₂ with
    | nil => simpa using heq
    | cons c t =>
      simp only [List.nil_append, List.cons_append, List.cons.injEq] at heq
      exact absurd (heq.1 ▸ List.mem_cons_self c t) h₂
  | cons c t ih =>
    intro l₂ x y h₁ h₂ heq
    cases l₂ with
    | nil =>
      simp only [List.nil_append, List.cons_append, List.cons.injEq] at heq
      exact absurd (heq.1 ▸ List.mem_cons_self c t) h₁
    | cons c' t' =>
      simp only [List.cons_append, List.cons.injEq] at heq
      have ht := ih t' x y (fun hm => h₁ (List.mem_cons_of_mem c hm))
        (fun hm => h₂ (heq.1 ▸ List.mem_cons_of_mem c' hm)) heq.2
      exact ⟨by rw [heq.1, ht.1], ht.2⟩

/-- The class name contains no parenthesis: Python class names are
identifiers, which cannot contain '(' or ' '. -/
def noParen (s : String) : Prop := '(' ∉ s.data

instance noParenDecidable (s : String) : Decidable (noParen s) :=
  inferInstanceAs (Decidable ('(' ∉ s.data))

theorem indexedName_data (c : String) (k : Nat) :
    (indexedName c k).data =
      (c.data ++ [' ']) ++ '(' :: ((decimalRepr k).data ++ [')']) := by
  simp [indexedName, String.data_append]

/-- Indexed display names are injective when the base class names are
parenthesis-free. -/
theorem indexedName_inj {c₁ c₂ : String} {k₁ k₂ : Nat}
    (h₁ : noParen c₁) (h₂ : noParen c₂)
    (h : indexedName c₁ k₁ = indexedName c₂ k₂) : c₁ = c₂ ∧ k₁ = k₂ := by
  have hd := congrArg String.data h
  rw [indexedName_data, indexedName_data] at hd
  have hm₁ : '(' ∉ c₁.data ++ [' '] := by
    intro hmem
    rcases List.mem_append.1 hmem with hc | hc
    · exact h₁ hc
    · simp at hc
  have hm₂ : '(' ∉ c₂.data ++ [' '] := by
    intro hmem
    rcases List.mem_append.1 hmem with hc | hc
    · exact h₂ hc
    · simp at hc
  have hsplit := split_at_marker '(' _ _ _ _ hm₁ hm₂ hd
  have hc : c₁ = c₂ := by
    have := (List.append_inj' hsplit.1 rfl).1
    exact String.ext this
  have hk : k₁ = k₂ := by
    have := (List.append_inj' hsplit.2 rfl).1
    exact decimalRepr_injective (String.ext this)
  exact ⟨hc, hk⟩

/-- A parenthesis-free bare class name is never equal to an indexed
display name. -/
theorem bare_ne_indexedName {c₁ c₂ : String} {k : Nat} (h₁ : noParen c₁) :
    c₁ ≠ indexedName c₂ k := by
  intro h
  have hd := congrArg String.data h
  rw [indexedName_data] at hd
  apply h₁
  rw [hd]
  exact List.mem_append.2 (Or.inr (List.mem_cons_self _ _))

/-- The GUI states reachable from construction by sequences of add_view
and dock-container closes. add_view requires a class name without
parentheses (a Python identifier) and a view not already tracked (the
source asserts this). -/
inductive Reachable : GUI → Prop where
  | init (nm cfg : String) (fs : FS) : Reachable (GUI.init nm cfg fs)
  | add {g : GUI} (v : View) : Reachable g → noParen v.cls →
      (∀ tv ∈ g.views, tv.view ≠ v) → Reachable (g.add_view v).1
  | dockClose {g : GUI} (tv : TrackedView) : Reachable g →
      Reachable (g.dockCloseEvent tv).1

/-- The naming invariant: every tracked view has a parenthesis-free
class, its class counter is positive, and its display name is either the
bare class name or an indexed name whose index is below the class
counter. -/
def NameInv (g : GUI) : Prop :=
  ∀ tv ∈ g.views,
    noParen tv.view.cls ∧
    1 ≤ g.viewClassIndices tv.view.cls ∧
    (tv.name = tv.view.cls ∨
      ∃ k, 1 ≤ k ∧ k < g.viewClassIndices tv.view.cls ∧
        tv.name = indexedName tv.view.cls k)

/-- The name a fresh view would receive differs from the name of every
currently tracked view. -/
theorem set_view_name_fresh {g : GUI} (hInv : NameInv g) (v : View)
    (hv : noParen v.cls) : ∀ tv ∈ g.views, g.set_view_name v ≠ tv.name := by
  intro tv htv
  rcases hInv tv htv with ⟨hnp, hctr, hname⟩
  unfold GUI.set_view_name
  by_cases hemp : (g.list_views v.cls).isEmpty
  · rw [if_pos hemp]
    have hcls : tv.view.cls ≠ v.cls := by
      intro hc
      have : tv ∈ g.list_views v.cls := by
        simp [GUI.list_views, List.mem_filter, htv, hc]
      rw [List.isEmpty_iff] at hemp
      simp [hemp] at this
    rcases hname with hb | ⟨k, _, _, hi⟩
    · rw [hb]
      intro hc
      exact hcls hc.symm
    · rw [hi]
      exact bare_ne_indexedName hv
  · rw [if_neg hemp]
    rcases hname with hb | ⟨k, hk1, hklt, hi⟩
    · rw [hb]
      intro hc
      exact bare_ne_indexedName hnp hc.symm
    · rw [hi]
      intro hc
      rcases indexedName_inj hv hnp hc with ⟨hceq, hkeq⟩
      rw [hceq] at hkeq
      omega

/-- The naming invariant holds initially. -/
theorem nameInv_init (nm cfg : String) (fs : FS) :
    NameInv (GUI.init nm cfg fs) := by
  intro tv htv
  simp [GUI.init] at htv

/-- add_view preserves the naming invariant. -/
theorem nameInv_add {g : GUI} (hInv : NameInv g) (v : View)
    (hv : noParen v.cls) : NameInv (g.add_view v).1 := by
  intro tv htv
  simp only [GUI.add_view, List.mem_append, List.mem_singleton] at htv
  rcases htv with hold | hnew
  · rcases hInv tv hold with ⟨hnp, hctr, hname⟩
    refine ⟨hnp, ?_, ?_⟩
    · simp only [GUI.add_view]
      by_cases hc : tv.view.cls = v.cls
      · simp [hc]
      · simp only [if_neg hc]
        omega
    · rcases hname with hb | ⟨k, hk1, hklt, hi⟩
      · exact Or.inl hb
      · refine Or.inr ⟨k, hk1, ?_, hi⟩
        simp only [GUI.add_view]
        by_cases hc : tv.view.cls = v.cls
        · rw [hc] at hklt ⊢
          simp
          omega
        · simp only [if_neg hc]
          omega
  · subst hnew
    refine ⟨hv, ?_, ?_⟩
    · simp [GUI.add_view]
    · unfold GUI.set_view_name
      by_cases hemp : (g.list_views v.cls).isEmpty
      · rw [if_pos hemp]
        exact Or.inl rfl
      · rw [if_neg hemp]
        have hpos : 1 ≤ g.viewClassIndices v.cls := by
          have hne : g.list_views v.cls ≠ [] := by
            intro h0
            exact hemp (by simp [h0])
          rcases List.exists_mem_of_ne_nil _ hne with ⟨tv₀, htv₀⟩
          have hmem := List.mem_filter.1 htv₀
          have hceq : tv₀.view.cls = v.cls := by
            have := hmem.2
            simpa using this
          have := (hInv tv₀ hmem.1).2.1
          rw [hceq] at this
          exact this
        refine Or.inr ⟨g.viewClassIndices v.cls, hpos, ?_, rfl⟩
        simp [GUI.add_view]
/-- Closing a dock container preserves the naming invariant. -/
theorem nameInv_dockClose {g : GUI} (hInv : NameInv g) (tv : TrackedView) :
    NameInv (g.dockCloseEvent tv).1 := by
  intro tv' htv'
  simp only [GUI.dockCloseEvent] at htv'
  exact hInv tv' ((g.views.erase_sublist tv).mem htv')

/-- Every reachable GUI state satisfies the naming invariant. -/
theorem reachable_nameInv {g : GUI} (h : Reachable g) : NameInv g := by
  induction h with
  | init nm cfg fs => exact nameInv_init nm cfg fs
  | add v _ hnp _ ih => exact nameInv_add ih v hnp
  | dockClose tv _ ih => exact nameInv_dockClose ih tv

/-- The empty file system. -/
def fsEmpty : FS := fun _ => none

/-- A freshly constructed GUI window fixture. -/
def exGui : GUI := GUI.init "GUI" "cfg" fsEmpty

/-- A first view object of class Foo. -/
def vFoo1 : View := ⟨1, "Foo"⟩

/-- A second, distinct view object of class Foo. -/
def vFoo2 : View := ⟨2, "Foo"⟩

/-- C1 counterexample: display names ARE reused after removal. Adding a
Foo view names it Foo; after its dock is closed, adding a different Foo
view assigns the same name Foo again, contradicting the claim that a
name handed out once is never assigned to a different view. -/
theorem C1_counterexample :
    (exGui.add_view vFoo1).2 = "Foo" ∧
    (((exGui.add_view vFoo1).1.dockCloseEvent
        ⟨vFoo1, "Foo"⟩).1.add_view vFoo2).2 = "Foo" ∧
    vFoo2 ≠ vFoo1 := by
  refine ⟨rfl, by decide, by decide⟩

/-- C1 (amended): once a name has been assigned to a view, no later
add_view assigns that same name to a different view WHILE the earlier
view is still tracked; after the earlier view's removal the name can be
reused (the bare class name is reassigned once no view of its class
remains tracked, while the per-class counter itself never decreases). -/
theorem C1_names_not_reused_while_tracked {g : GUI} (hg : Reachable g)
    (v : View) (hv : noParen v.cls) :
    ∀ tv ∈ g.views, (g.add_view v).2 ≠ tv.name :=
  set_view_name_fresh (reachable_nameInv hg) v hv

/-- C1 witness: in a window tracking one Foo view named Foo, adding a
second Foo view does not assign the name Foo. -/
theorem C1_names_witness :
    (((GUI.init "GUI" "cfg" fsEmpty).add_view vFoo1).1.add_view vFoo2).2 ≠
      (⟨vFoo1, "Foo"⟩ : TrackedView).name :=
  C1_names_not_reused_while_tracked
    (Reachable.add vFoo1 (Reachable.init "GUI" "cfg" fsEmpty) (by decide)
      (by decide))
    vFoo2 (by decide) ⟨vFoo1, "Foo"⟩ (by decide)

/-- C2 counterexample: a listener returning None — a false-like (falsy)
value — does NOT veto the close: the close event is not ignored and the
geometry capture and state save are both performed. -/
theorem C2_counterexample :
    PyVal.truthy PyVal.pynone = false ∧
    (exGui.closeEvent fsEmpty [PyVal.pynone]).2.2 =
      (⟨true, false, true, true⟩ : CloseEffects) :=
  ⟨rfl, rfl⟩

/-- C2 (amended): during window close, if any connected close listener
returns a value equal to False (False or 0; Python membership False in
res), the close is vetoed: the event is ignored, the window state and
the file system are untouched; if no listener returns such a value, the
close proceeds: the close event is emitted, the geometry is captured,
the state is saved, and the window is closed and hidden. -/
theorem C2_close_veto {g : GUI} (fs : FS) (res : List PyVal)
    (hopen : g.closed = false) :
    ((∃ r ∈ res, r.eqFalse = true) →
      g.closeEvent fs res = (g, fs, ⟨true, true, false, false⟩)) ∧
    ((∀ r ∈ res, r.eqFalse = false) →
      (g.closeEvent fs res).2.2 = ⟨true, false, true, true⟩ ∧
      (g.closeEvent fs res).1.closed = true ∧
      (g.closeEvent fs res).1.visible = false) := by
  constructor
  · intro hveto
    have hany : res.any PyVal.eqFalse = true := List.any_eq_true.2 hveto
    simp [GUI.closeEvent, hopen, hany]
  · intro hall
    have hany : res.any PyVal.eqFalse = false := by
      rw [List.any_eq_false]
      intro r hr
      simp [hall r hr]
    simp [GUI.closeEvent, hopen, hany]

/-- C2 witness: a single listener returning False vetoes the close and
leaves the window and the file system untouched. -/
theorem C2_close_veto_witness :
    exGui.closeEvent fsEmpty [PyVal.bool false] =
      (exGui, fsEmpty, ⟨true, true, false, false⟩) :=
  (@C2_close_veto exGui fsEmpty [PyVal.bool false] rfl).1
    ⟨PyVal.bool false, by decide, by decide⟩

/-- C3: the close sequence is idempotent. After a closeEvent that ran to
completion (not vetoed), any later closeEvent invocation returns
immediately: it leaves the window and the file system unchanged and
performs no emission, no geometry capture and no save. -/
theorem C3_close_idempotent {g : GUI} (fs fs₂ : FS) (res res₂ : List PyVal)
    (hopen : g.closed = false) (hres : res.any PyVal.eqFalse = false) :
    (g.closeEvent fs res).1.closeEvent fs₂ res₂ =
      ((g.closeEvent fs res).1, fs₂, noEffects) := by
  have h1 : (g.closeEvent fs res).1.closed = true := by
    simp [GUI.closeEvent, hopen, hres]
  generalize (g.closeEvent fs res).1 = g₁ at h1 ⊢
  simp [GUI.closeEvent, h1]

/-- C3 witness: closing a fresh window twice, the second invocation is a
no-op. -/
theorem C3_close_idempotent_witness :
    (exGui.closeEvent fsEmpty []).1.closeEvent fsEmpty [] =
      ((exGui.closeEvent fsEmpty []).1, fsEmpty, noEffects) :=
  @C3_close_idempotent exGui fsEmpty fsEmpty [] [] rfl rfl

/-- Evaluation of the indexed name at index 1. -/
theorem indexedName_one (c : String) : indexedName c 1 = c ++ " (1)" := by
  apply String.ext
  simp only [indexedName, String.data_append, List.append_assoc]
  rfl

/-- Evaluation of the indexed name at index 2. -/
theorem indexedName_two (c : String) : indexedName c 2 = c ++ " (2)" := by
  apply String.ext
  simp only [indexedName, String.data_append, List.append_assoc]
  rfl

/-- The tracked list after add_view. -/
theorem add_view_views (g : GUI) (v : View) :
    (g.add_view v).1.views = g.views ++ [⟨v, g.set_view_name v⟩] := rfl

/-- The per-class counter after add_view. -/
theorem add_view_ctr (g : GUI) (v : View) (c : String) :
    (g.add_view v).1.viewClassIndices c =
      if c = v.cls then g.viewClassIndices c + 1 else g.viewClassIndices c :=
  rfl

/-- list_views after add_view: the filter distributes over the appended
singleton. -/
theorem list_views_add (g : GUI) (v : View) (c : String) :
    (g.add_view v).1.list_views c =
      g.list_views c ++
        if v.cls == c then [⟨v, g.set_view_name v⟩] else [] := by
  simp only [GUI.list_views, add_view_views, List.filter_append]
  by_cases hvc : v.cls == c
  · simp [List.filter, hvc]
  · simp [List.filter, hvc]

/-- C4: for a window in which no view of class c has ever been added
(empty per-class list and zero per-class counter), three successive
add_view calls with views of class c assign the names c, then c (1),
then c (2). -/
theorem C4_same_class_names {g : GUI} (c : String) (v₁ v₂ v₃ : View)
    (hc1 : v₁.cls = c) (hc2 : v₂.cls = c) (hc3 : v₃.cls = c)
    (hemp : g.list_views c = []) (hctr : g.viewClassIndices c = 0) :
    (g.add_view v₁).2 = c ∧
    ((g.add_view v₁).1.add_view v₂).2 = c ++ " (1)" ∧
    (((g.add_view v₁).1.add_view v₂).1.add_view v₃).2 = c ++ " (2)" := by
  have h1 : g.set_view_name v₁ = c := by
    simp [GUI.set_view_name, hc1, hemp]
  have hl1 : (g.add_view v₁).1.list_views c = [⟨v₁, c⟩] := by
    rw [list_views_add, hemp, h1]
    simp [hc1]
  have hctr1 : (g.add_view v₁).1.viewClassIndices c = 1 := by
    rw [add_view_ctr]
    simp [hc1, hctr]
  have h2 : (g.add_view v₁).1.set_view_name v₂ = c ++ " (1)" := by
    rw [GUI.set_view_name, hc2, hl1, hctr1]
    simp [indexedName_one]
  have hl2 : ((g.add_view v₁).1.add_view v₂).1.list_views c =
      [⟨v₁, c⟩, ⟨v₂, c ++ " (1)"⟩] := by
    rw [list_views_add, hl1, h2]
    simp [hc2]
  have hctr2 : ((g.add_view v₁).1.add_view v₂).1.viewClassIndices c = 2 := by
    rw [add_view_ctr]
    simp [hc2, hctr1]
  have h3 : ((g.add_view v₁).1.add_view v₂).1.set_view_name v₃ =
      c ++ " (2)" := by
    rw [GUI.set_view_name, hc3, hl2, hctr2]
    simp [indexedName_two]
  exact ⟨h1, h2, h3⟩

/-- C4 witness: three Foo views added to a fresh window are named Foo,
Foo (1) and Foo (2). -/
theorem C4_same_class_names_witness :
    (exGui.add_view vFoo1).2 = "Foo" ∧
    ((exGui.add_view vFoo1).1.add_view vFoo2).2 = "Foo" ++ " (1)" ∧
    (((exGui.add_view vFoo1).1.add_view vFoo2).1.add_view ⟨3, "Foo"⟩).2 =
      "Foo" ++ " (2)" :=
  @C4_same_class_names exGui "Foo" vFoo1 vFoo2 ⟨3, "Foo"⟩ rfl rfl rfl rfl rfl

/-- C5: saving a state then constructing a fresh GUIState with the same
name and config directory over the written file yields the same value
at every key other than the bookkeeping keys config_dir and name (which
save omits from the file). -/
theorem C5_state_roundtrip (st : GUIState) (fs : FS) (nm cfg : String)
    (hn : st.data "name" = some (JVal.str nm))
    (hc : st.data "config_dir" = some (JVal.str cfg)) :
    ∀ k, k ≠ "config_dir" → k ≠ "name" →
      (GUIState.init nm cfg (fun _ => none) (st.save fs)).data k =
        st.data k := by
  intro k hk1 hk2
  have hpath :
      (⟨fun q =>
        if q = "name" then some (JVal.str nm)
        else if q = "config_dir" then some (JVal.str cfg)
        else none⟩ : GUIState).path = st.path := by
    simp [GUIState.path, GUIState.getStr, hn, hc]
  rw [GUIState.init, GUIState.load, hpath]
  simp only [GUIState.save, if_pos rfl]
  simp only [GUIState.updateWith]
  rcases hdk : st.data k with _ | v
  · simp [hk1, hk2, hdk]
  · simp [hk1, hk2, hdk]

/-- A concrete state fixture with one payload key. -/
def exState : GUIState :=
  ⟨fun k =>
    if k = "name" then some (JVal.str "GUI")
    else if k = "config_dir" then some (JVal.str "cfg")
    else if k = "a" then some (JVal.num 5)
    else none⟩

/-- C5 witness: the payload key a of a saved state is recovered by a
fresh GUIState constructed over the written file. -/
theorem C5_state_roundtrip_witness :
    (GUIState.init "GUI" "cfg" (fun _ => none)
      (exState.save fsEmpty)).data "a" = exState.data "a" :=
  C5_state_roundtrip exState fsEmpty "GUI" "cfg" rfl rfl "a"
    (by decide) (by decide)

/-- C6: GUIState.load never raises on a bad state file: every run
returns ok (the only exception a bad file raises, JSONDecodeError, is
caught), and when the file is absent or malformed all keys of the state
are left unchanged. -/
theorem C6_load_total (st : GUIState) (fs : FS) :
    st.loadE fs = Except.ok (st.load fs) ∧
    ((fs st.path = none ∨ fs st.path = some FileContent.malformed) →
      ∀ k, (st.load fs).data k = st.data k) := by
  constructor
  · cases h : fs st.path with
    | none => simp [GUIState.loadE, GUIState.load, h]
    | some c => cases c <;> simp [GUIState.loadE, GUIState.load, h]
  · intro hbad k
    rcases hbad with hb | hb <;>
      simp [GUIState.load, hb, GUIState.updateWith]

/-- A file system whose only file is a malformed state file for
exState. -/
def fsBad : FS :=
  fun p => if p = exState.path then some FileContent.malformed else none

/-- C6 witness: loading a malformed state file returns ok and leaves the
payload key a unchanged. -/
theorem C6_load_total_witness :
    exState.loadE fsBad = Except.ok (exState.load fsBad) ∧
    (exState.load fsBad).data "a" = exState.data "a" :=
  ⟨(C6_load_total exState fsBad).1,
    (C6_load_total exState fsBad).2 (Or.inr (by simp [fsBad])) "a"⟩

/-- C7: when a dock container's close event fires, exactly the view held
by that container is removed from the tracked list — the other tracked
views remain, in order — and the window-level close_view event is
emitted after the container's own close_dock_widget notification. -/
theorem C7_dock_close_removes_exactly (g : GUI) (tv : TrackedView)
    (hnd : g.views.Nodup) (hmem : tv ∈ g.views) :
    ∃ l₁ l₂, g.views = l₁ ++ tv :: l₂ ∧
      (g.dockCloseEvent tv).1.views = l₁ ++ l₂ ∧
      tv ∉ l₁ ++ l₂ ∧
      (g.dockCloseEvent tv).2 =
        [Ev.close_dock_widget tv, Ev.close_view tv] := by
  rcases List.append_of_mem hmem with ⟨l₁, l₂, hl⟩
  have hnd' : (l₁ ++ tv :: l₂).Nodup := hl ▸ hnd
  rw [List.nodup_append] at hnd'
  have h1 : tv ∉ l₁ := fun hin => hnd'.2.2 hin (List.mem_cons_self tv l₂)
  have h2 : tv ∉ l₂ := (List.nodup_cons.1 hnd'.2.1).1
  refine ⟨l₁, l₂, hl, ?_, ?_, rfl⟩
  · simp only [GUI.dockCloseEvent, hl]
    rw [List.erase_append_right _ h1, List.erase_cons_head]
  · intro hin
    rcases List.mem_append.1 hin with hin | hin
    · exact h1 hin
    · exact h2 hin

/-- A tracked Foo view fixture. -/
def tvFoo : TrackedView := ⟨⟨1, "Foo"⟩, "Foo"⟩

/-- A tracked Bar view fixture. -/
def tvBar : TrackedView := ⟨⟨3, "Bar"⟩, "Bar"⟩

/-- A window fixture tracking one Foo view and one Bar view. -/
def exGui2 : GUI := { exGui with views := [tvFoo, tvBar] }

/-- C7 witness: closing the Foo dock removes exactly the Foo view. -/
theorem C7_dock_close_witness :
    ∃ l₁ l₂, exGui2.views = l₁ ++ tvFoo :: l₂ ∧
      (exGui2.dockCloseEvent tvFoo).1.views = l₁ ++ l₂ ∧
      tvFoo ∉ l₁ ++ l₂ ∧
      (exGui2.dockCloseEvent tvFoo).2 =
        [Ev.close_dock_widget tvFoo, Ev.close_view tvFoo] :=
  C7_dock_close_removes_exactly exGui2 tvFoo (by decide) (by decide)

/-- Looking up the bumped key yields the old count plus one. -/
theorem bump_lookup_self (acc : List (String × Nat)) (c : String) :
    (bump acc c).lookup c = some ((acc.lookup c).getD 0 + 1) := by
  induction acc with
  | nil => simp [bump]
  | cons p rest ih =>
    obtain ⟨k, n⟩ := p
    by_cases hk : k = c
    · subst hk
      simp [bump, List.lookup_cons]
    · have hck : (c == k) = false := by
        simp [Ne.symm hk]
      simp [bump, hk, List.lookup_cons, hck, ih]

/-- Looking up any other key is unaffected by a bump. -/
theorem bump_lookup_other (acc : List (String × Nat)) (c q : String)
    (h : q ≠ c) : (bump acc c).lookup q = acc.lookup q := by
  have hqc : (q == c) = false := by simp [h]
  induction acc with
  | nil => simp [bump, List.lookup_cons, hqc]
  | cons p rest ih =>
    obtain ⟨k, n⟩ := p
    by_cases hk : k = c
    · subst hk
      have hqk : (q == k) = false := by simp [h]
      simp [bump, List.lookup_cons, hqk]
    · simp [bump, hk, List.lookup_cons, ih]

/-- A bump increases the total count by one. -/
theorem bump_sum (acc : List (String × Nat)) (c : String) :
    ((bump acc c).map Prod.snd).sum = (acc.map Prod.snd).sum + 1 := by
  induction acc with
  | nil => simp [bump]
  | cons p rest ih =>
    obtain ⟨k, n⟩ := p
    by_cases hk : k = c
    · subst hk
      simp [bump]
      omega
    · simp [bump, hk, ih]
      omega

/-- Characterisation of the counting fold behind view_count. -/
theorem foldl_bump_lookup (l : List TrackedView) :
    ∀ (acc : List (String × Nat)) (c : String),
      (l.foldl (fun a tv => bump a tv.view.cls) acc).lookup c =
        match acc.lookup c with
        | some n =>
            some (n + (l.filter (fun tv => tv.view.cls == c)).length)
        | none =>
            if (l.filter (fun tv => tv.view.cls == c)).length = 0 then none
            else some ((l.filter (fun tv => tv.view.cls == c)).length) := by
  induction l with
  | nil =>
    intro acc c
    cases h : acc.lookup c <;> simp [h]
  | cons hd t ih =>
    intro acc c
    simp only [List.foldl_cons]
    rw [ih (bump acc hd.view.cls) c]
    by_cases hcls : hd.view.cls = c
    · subst hcls
      rw [bump_lookup_self]
      have hne :
          (List.filter (fun tv => tv.view.cls == hd.view.cls) t).length + 1 ≠
            0 := Nat.succ_ne_zero _
      cases h : acc.lookup hd.view.cls with
      | none =>
        simp only [h, Option.getD_none, List.filter_cons, beq_self_eq_true,
          if_true, List.length_cons, if_neg hne, Option.some.injEq]
        omega
      | some n =>
        simp only [h, Option.getD_some, List.filter_cons, beq_self_eq_true,
          if_true, List.length_cons, Option.some.injEq]
        omega
    · have hne : (hd.view.cls == c) = false := by simp [hcls]
      rw [bump_lookup_other acc hd.view.cls c (Ne.symm hcls)]
      simp [List.filter_cons, hne]

/-- The counting fold sums to the number of items folded. -/
theorem foldl_bump_sum (l : List TrackedView) :
    ∀ acc : List (String × Nat),
      ((l.foldl (fun a tv => bump a tv.view.cls) acc).map Prod.snd).sum =
        (acc.map Prod.snd).sum + l.length := by
  induction l with
  | nil => intro acc; simp
  | cons hd t ih =>
    intro acc
    simp only [List.foldl_cons, List.length_cons]
    rw [ih (bump acc hd.view.cls), bump_sum]
    omega

/-- C8: view_count maps exactly the classes of currently tracked views
(a class is present iff it has a tracked view) to the number of tracked
views of that class, and its values sum to the length of the tracked
list. -/
theorem C8_view_count (g : GUI) (c : String) :
    g.view_count.lookup c =
      (if (g.list_views c).length = 0 then none
       else some ((g.list_views c).length)) ∧
    (g.view_count.map Prod.snd).sum = g.views.length := by
  constructor
  · have h := foldl_bump_lookup g.views [] c
    simpa [GUI.view_count, GUI.list_views] using h
  · have h := foldl_bump_sum g.views []
    simpa [GUI.view_count] using h

/-- C9: while the status lock flag is set, assigning status_message
leaves the window (hence the visible message) unchanged while the getter
still returns the current message; after unlock_status, assignment sets
the message to str of the assigned value again. -/
theorem C9_status_lock (g : GUI) (v w : PyVal) (hlock : g.lockStatus = true) :
    g.set_status_message v = g ∧
    (g.set_status_message v).status_message = g.status_message ∧
    (g.unlock_status.set_status_message w).status_message = w.pyStr := by
  refine ⟨?_, ?_, ?_⟩
  · simp [GUI.set_status_message, hlock]
  · simp [GUI.set_status_message, hlock]
  · simp [GUI.set_status_message, GUI.unlock_status, GUI.status_message]

/-- C9 witness: on a locked window, assignment is suppressed; after
unlocking, assignment goes through. -/
theorem C9_status_lock_witness :
    exGui.lock_status.set_status_message (PyVal.str "a") = exGui.lock_status ∧
    (exGui.lock_status.set_status_message (PyVal.str "a")).status_message =
      exGui.lock_status.status_message ∧
    (exGui.lock_status.unlock_status.set_status_message
      (PyVal.str "b")).status_message = (PyVal.str "b").pyStr :=
  C9_status_lock exGui.lock_status (PyVal.str "a") (PyVal.str "b") rfl

/-- C10: get_view supports negative indices by Python negative indexing:
with n tracked views of the class and -n <= i <= -1, it returns the
(n + i)-th matching view, and it returns None exactly when i >= n. -/
theorem C10_get_view_negative (g : GUI) (c : String) (i : Int)
    (_hn : 1 ≤ (g.list_views c).length)
    (hlo : -((g.list_views c).length : Int) ≤ i) (hhi : i ≤ -1) :
    (∃ tv,
      (g.list_views c).get? (((g.list_views c).length : Int) + i).toNat =
        some tv ∧
      g.get_view c i = PyRes.found tv) ∧
    (∀ j : Int,
      g.get_view c j = PyRes.pynone ↔ ((g.list_views c).length : Int) ≤ j) := by
  constructor
  · have hcond : i ≤ ((g.list_views c).length : Int) - 1 := by omega
    have hneg : i < 0 := by omega
    have hj : (0 : Int) ≤ (g.list_views c).length + i := by omega
    have hjlt : (((g.list_views c).length : Int) + i).toNat <
        (g.list_views c).length := by omega
    refine ⟨(g.list_views c).get
      ⟨(((g.list_views c).length : Int) + i).toNat, hjlt⟩,
      List.get?_eq_get hjlt, ?_⟩
    rw [GUI.get_view, if_pos hcond]
    simp only [pyIndex, if_pos hneg, if_pos hj]
    rw [List.get?_eq_get hjlt]
  · intro j
    by_cases hj : j ≤ ((g.list_views c).length : Int) - 1
    · rw [GUI.get_view, if_pos hj]
      constructor
      · intro hres
        rcases hpi : pyIndex (g.list_views c) j with _ | tv <;>
          rw [hpi] at hres <;> cases hres
      · intro hge
        omega
    · rw [GUI.get_view, if_neg hj]
      constructor
      · intro _
        omega
      · intro _
        rfl

/-- C10 witness: on a window tracking one Foo view, get_view Foo (-1)
returns that view, and the iff part at index 1 gives None. -/
theorem C10_get_view_negative_witness :
    (∃ tv,
      (exGui2.list_views "Foo").get?
        (((exGui2.list_views "Foo").length : Int) + (-1)).toNat = some tv ∧
      exGui2.get_view "Foo" (-1) = PyRes.found tv) ∧
    (∀ j : Int,
      exGui2.get_view "Foo" j = PyRes.pynone ↔
        ((exGui2.list_views "Foo").length : Int) ≤ j) :=
  C10_get_view_negative exGui2 "Foo" (-1) (by decide) (by decide) (by decide)

end Phy
